import Mathlib

/-
Verification of the icloud-photos-sync core against its specification.

This file contains a shallow embedding of the photo-library differ
(PhotosLibrary.getProcessingQueues), the on-disk album loader
(PhotosLibrary.loadAlbum / loadAlbums / readAlbumTypeFromPath) and the
sync driver retry loop (SyncEngine.sync / checkFatalError), translated
from the TypeScript sources, together with theorems settling the claims
about them.
-/

namespace ICPS

/-! ## On-disk model

A directory's contents are modelled as a list of entries.  An entry is a
subdirectory (carrying its own contents), a regular file, or a symbolic
link carrying its target string.  This mirrors what the TypeScript code
observes through readdir with file types plus readlink. -/

inductive DEntry : Type where
  | dir (name : String) (contents : List DEntry)
  | file (name : String)
  | symlink (name : String) (target : String)

/-- Mirrors fs.Dirent.isDirectory. -/
def DEntry.isDirectory : DEntry → Bool
  | .dir _ _ => true
  | _ => false

/-- Mirrors fs.Dirent.isFile. -/
def DEntry.isFile : DEntry → Bool
  | .file _ => true
  | _ => false

/-- Mirrors fs.Dirent.isSymbolicLink. -/
def DEntry.isSymbolicLink : DEntry → Bool
  | .symlink _ _ => true
  | _ => false

/-- Album kinds, from model/album.ts (AlbumType). -/
inductive AlbumType : Type where
  | folder
  | album
  | archived
deriving DecidableEq

/-- Embedding of PhotosLibrary.readAlbumTypeFromPath: if the directory
contains a subdirectory the album is a FOLDER; otherwise, if it contains a
regular file, it is ARCHIVED; otherwise it is an ALBUM. -/
def readAlbumTypeFromPath (contents : List DEntry) : AlbumType :=
  let directoryPresent := contents.any (fun e => e.isDirectory)
  let filePresent := contents.any (fun e => e.isFile)
  if directoryPresent then AlbumType.folder
  else if filePresent then AlbumType.archived
  else AlbumType.album

/-- Embedding of the warning branch of readAlbumTypeFromPath: the logger
warning about an extraneous file is emitted exactly when both a
subdirectory and a regular file are present. -/
def readAlbumTypeWarning (contents : List DEntry) : Bool :=
  contents.any (fun e => e.isDirectory) && contents.any (fun e => e.isFile)

/-- C6: readAlbumTypeFromPath classifies a directory as FOLDER iff it has a
subdirectory (warning iff regular files are also present, still FOLDER),
as ARCHIVED iff it has no subdirectory but a regular file, and as ALBUM
otherwise. -/
theorem c6_readAlbumTypeFromPath (contents : List DEntry) :
    (readAlbumTypeFromPath contents = AlbumType.folder ↔
      (∃ e ∈ contents, e.isDirectory = true)) ∧
    (readAlbumTypeFromPath contents = AlbumType.archived ↔
      (¬(∃ e ∈ contents, e.isDirectory = true) ∧ ∃ e ∈ contents, e.isFile = true)) ∧
    (readAlbumTypeFromPath contents = AlbumType.album ↔
      (¬(∃ e ∈ contents, e.isDirectory = true) ∧ ¬(∃ e ∈ contents, e.isFile = true))) ∧
    (readAlbumTypeWarning contents = true ↔
      ((∃ e ∈ contents, e.isDirectory = true) ∧ ∃ e ∈ contents, e.isFile = true)) := by
  unfold readAlbumTypeFromPath readAlbumTypeWarning
  by_cases hd : contents.any (fun e => e.isDirectory) = true <;>
    by_cases hf : contents.any (fun e => e.isFile) = true <;>
      simp only [hd, hf, if_true, if_false, Bool.true_and, Bool.false_and] <;>
        simp_all [List.any_eq_true]

/-! ## The differ (PhotosLibrary.getProcessingQueues)

Local entity libraries (PLibraryEntity, a plain JavaScript object keyed by
UUID) are modelled as association lists in insertion order.  A remote
entity (PEntity) carries its UUID, its equality test against a local
entity, and the value its unpack method returns. -/

/-- Remote entity interface, from model/photos-entity.ts: getUUID, equal
and unpack. -/
structure PEntity (T : Type) where
  uuid : String
  equal : T → Bool
  unpack : T

/-- Property lookup on a JavaScript object modelled as an association
list. -/
def lookupE {T : Type} : List (String × T) → String → Option T
  | [], _ => none
  | kv :: rest, u => if kv.1 == u then some kv.2 else lookupE rest u

/-- The delete operator on a JavaScript object modelled as an association
list. -/
def eraseE {T : Type} (m : List (String × T)) (u : String) : List (String × T) :=
  m.filter (fun kv => !(kv.1 == u))

/-- Property assignment on a JavaScript object modelled as an association
list: updates an existing key in place, otherwise appends. -/
def objSet {T : Type} (m : List (String × T)) (k : String) (v : T) : List (String × T) :=
  if m.any (fun kv => kv.1 == k) then
    m.map (fun kv => if kv.1 == k then (k, v) else kv)
  else m ++ [(k, v)]

/-- Loop body of getProcessingQueues: walks the remote entities, building
the toBeAdded list and removing every matched local entity from the local
library object (the argument object itself is mutated by the TypeScript
code; the mutation is made explicit by threading the map). -/
def gpqGo {T : Type} : List (PEntity T) → List (String × T) → List T →
    List (String × T) × List T
  | [], locals, adds => (locals, adds)
  | r :: rs, locals, adds =>
    match lookupE locals r.uuid with
    | none => gpqGo rs locals (adds ++ [r.unpack])
    | some l =>
      if r.equal l then gpqGo rs (eraseE locals r.uuid) adds
      else gpqGo rs locals (adds ++ [r.unpack])

/-- Result of getProcessingQueues.  The TypeScript function returns the
pair [toBeDeleted, toBeAdded]; localAfter records the state of the
localEntities argument after the call (it is mutated in place). -/
structure GPQResult (T : Type) where
  localAfter : List (String × T)
  toBeDeleted : List T
  toBeAdded : List T
deriving DecidableEq

/-- Embedding of PhotosLibrary.getProcessingQueues: for each remote
entity, if there is no local entity under its UUID or the local entity is
not equal to it, the remote entity is unpacked onto toBeAdded; otherwise
the local entity is deleted from the local library.  toBeDeleted is the
list of values remaining in the (mutated) local library. -/
def getProcessingQueues {T : Type} (remoteEntities : List (PEntity T))
    (localEntities : List (String × T)) : GPQResult T :=
  let p := gpqGo remoteEntities localEntities []
  ⟨p.1, p.1.map (fun kv => kv.2), p.2⟩

/-- Does the local library hold an entity equal to the remote entity under
the remote entity's UUID?  (The add condition of the differ, negated.) -/
def matchesLocal {T : Type} (locals : List (String × T)) (r : PEntity T) : Bool :=
  match lookupE locals r.uuid with
  | none => false
  | some l => r.equal l

/-! ### Association-list lemmas -/

theorem lookupE_eraseE_ne {T : Type} (m : List (String × T)) (u k : String)
    (h : k ≠ u) : lookupE (eraseE m u) k = lookupE m k := by
  induction m with
  | nil => rfl
  | cons kv rest ih =>
    simp only [eraseE] at ih
    have hne : ¬u = k := fun hh => h hh.symm
    by_cases hk : kv.1 = u
    · simp [eraseE, List.filter_cons, hk, lookupE, hne, ih]
    · by_cases hk2 : kv.1 = k
      · simp [eraseE, List.filter_cons, hk, lookupE, hk2, h]
      · simp [eraseE, List.filter_cons, hk, lookupE, hk2, ih]

theorem mem_of_lookupE {T : Type} (m : List (String × T)) (k : String) (v : T)
    (h : lookupE m k = some v) : (k, v) ∈ m := by
  induction m with
  | nil => simp [lookupE] at h
  | cons kv rest ih =>
    by_cases hk : kv.1 = k
    · simp [lookupE, hk] at h
      have hkv : (k, v) = kv := by cases kv; simp_all
      rw [hkv]
      exact List.mem_cons_self _ _
    · simp [lookupE, hk] at h
      exact List.mem_cons.mpr (Or.inr (ih h))

theorem lookupE_isSome_of_mem {T : Type} (m : List (String × T)) (k : String) (v : T)
    (h : (k, v) ∈ m) : lookupE m k ≠ none := by
  induction m with
  | nil => simp at h
  | cons kv rest ih =>
    rcases List.mem_cons.mp h with h1 | h2
    · simp [lookupE, ← h1]
    · by_cases hk : kv.1 = k
      · simp [lookupE, hk]
      · simp [lookupE, hk]
        exact ih h2

theorem lookupE_of_mem {T : Type} (m : List (String × T)) (k : String) (v : T)
    (hnd : (m.map Prod.fst).Nodup) (h : (k, v) ∈ m) : lookupE m k = some v := by
  induction m with
  | nil => simp at h
  | cons kv rest ih =>
    simp only [List.map_cons, List.nodup_cons] at hnd
    rcases List.mem_cons.mp h with h1 | h2
    · simp [lookupE, ← h1]
    · by_cases hk : kv.1 = k
      · exfalso
        apply hnd.1
        rw [hk]
        exact List.mem_map.mpr ⟨(k, v), h2, rfl⟩
      · simp [lookupE, hk]
        exact ih hnd.2 h2

theorem value_unique_of_nodup {T : Type} (m : List (String × T)) (k : String) (a b : T)
    (hnd : (m.map Prod.fst).Nodup) (ha : (k, a) ∈ m) (hb : (k, b) ∈ m) : a = b := by
  have h1 := lookupE_of_mem m k a hnd ha
  have h2 := lookupE_of_mem m k b hnd hb
  exact Option.some.inj (h1.symm.trans h2)

theorem keys_nodup_eraseE {T : Type} (m : List (String × T)) (u : String)
    (hnd : (m.map Prod.fst).Nodup) : ((eraseE m u).map Prod.fst).Nodup := by
  have hsub : (eraseE m u).Sublist m := List.filter_sublist m
  exact (hsub.map Prod.fst).nodup hnd

/-! ### Characterization of the differ loop -/

theorem gpqGo_adds {T : Type} (rs : List (PEntity T)) :
    ∀ (m : List (String × T)) (adds : List T),
    (rs.map PEntity.uuid).Nodup →
    (gpqGo rs m adds).2 =
      adds ++ (rs.filter (fun r => !(matchesLocal m r))).map PEntity.unpack := by
  induction rs with
  | nil => intro m adds _; simp [gpqGo]
  | cons r rs ih =>
    intro m adds hnd
    simp only [List.map_cons, List.nodup_cons] at hnd
    cases hl : lookupE m r.uuid with
    | none =>
      have hm : matchesLocal m r = false := by simp [matchesLocal, hl]
      simp only [gpqGo, hl]
      rw [ih m (adds ++ [r.unpack]) hnd.2]
      simp [List.filter_cons, hm]
    | some l =>
      by_cases heq : r.equal l = true
      · have hm : matchesLocal m r = true := by simp [matchesLocal, hl, heq]
        simp only [gpqGo, hl, heq, if_true]
        rw [ih (eraseE m r.uuid) adds hnd.2]
        have hcong : ∀ rr ∈ rs, (!(matchesLocal (eraseE m r.uuid) rr)) =
            (!(matchesLocal m rr)) := by
          intro rr hrr
          have hne : rr.uuid ≠ r.uuid := by
            intro hh
            exact hnd.1 (List.mem_map.mpr ⟨rr, hrr, hh⟩)
          simp [matchesLocal, lookupE_eraseE_ne m r.uuid rr.uuid hne]
        rw [List.filter_congr hcong]
        simp [List.filter_cons, hm]
      · have hm : matchesLocal m r = false := by simp [matchesLocal, hl, heq]
        simp only [gpqGo, hl]
        rw [if_neg heq]
        rw [ih m (adds ++ [r.unpack]) hnd.2]
        simp [List.filter_cons, hm]

theorem gpqGo_localAfter {T : Type} (rs : List (PEntity T)) :
    ∀ (m : List (String × T)) (adds : List T),
    (rs.map PEntity.uuid).Nodup → (m.map Prod.fst).Nodup →
    (gpqGo rs m adds).1 =
      m.filter (fun kv => !(rs.any (fun r => r.uuid == kv.1 && r.equal kv.2))) := by
  induction rs with
  | nil => intro m adds _ _; simp [gpqGo]
  | cons r rs ih =>
    intro m adds hnd hm
    simp only [List.map_cons, List.nodup_cons] at hnd
    cases hl : lookupE m r.uuid with
    | none =>
      simp only [gpqGo, hl]
      rw [ih m (adds ++ [r.unpack]) hnd.2 hm]
      apply List.filter_congr
      intro kv hkv
      have hne : ¬(r.uuid = kv.1) := by
        intro hh
        exact lookupE_isSome_of_mem m kv.1 kv.2 hkv (hh ▸ hl)
      simp [List.any_cons, hne]
    | some l =>
      by_cases heq : r.equal l = true
      · simp only [gpqGo, hl, heq, if_true]
        rw [ih (eraseE m r.uuid) adds hnd.2 (keys_nodup_eraseE m r.uuid hm)]
        have hmem : (r.uuid, l) ∈ m := mem_of_lookupE m r.uuid l hl
        simp only [eraseE, List.filter_filter]
        apply List.filter_congr
        intro kv hkv
        by_cases hk : kv.1 = r.uuid
        · have hval : kv.2 = l := by
            apply value_unique_of_nodup m kv.1 kv.2 l hm
            · exact (Prod.mk.eta (p := kv)) ▸ hkv
            · rw [hk]; exact hmem
          simp [List.any_cons, hk, hval, heq]
        · have hne : ¬(r.uuid = kv.1) := fun hh => hk hh.symm
          have hb1 : (kv.1 == r.uuid) = false := by simp [hk]
          have hb2 : (r.uuid == kv.1) = false := by simp [hne]
          simp [List.any_cons, hb1, hb2]
      · simp only [gpqGo, hl]
        rw [if_neg heq]
        rw [ih m (adds ++ [r.unpack]) hnd.2 hm]
        have hmem : (r.uuid, l) ∈ m := mem_of_lookupE m r.uuid l hl
        apply List.filter_congr
        intro kv hkv
        by_cases hk : r.uuid = kv.1
        · have hval : kv.2 = l := by
            apply value_unique_of_nodup m kv.1 kv.2 l hm
            · exact (Prod.mk.eta (p := kv)) ▸ hkv
            · rw [← hk]; exact hmem
          simp [List.any_cons, hk, hval, heq]
        · simp [List.any_cons, hk]

/-! ### Claims about the differ -/

/-- C1 counterexample: the differ does not produce a triple with a toKeep
list.  On a remote list with one entity matched by an equal local entity,
the TypeScript function deletes the matched local entity from the map and
returns the pair (toBeDeleted, toBeAdded) = ([], []); the matched local
entity "la" appears in no component of the result, so no component plays
the role of a toKeep list containing the matched local entities. -/
theorem c1_counterexample :
    getProcessingQueues [PEntity.mk "a" (fun l => l == "la") "ra"] [("a", "la")] =
      GPQResult.mk [] [] [] := by
  decide

/-- C1 (amended): getProcessingQueues returns a pair (toBeDeleted,
toBeAdded) and no toKeep list.  For a remote list with pairwise-distinct
UUIDs and a local map with distinct keys: toBeAdded holds exactly (in
remote order) the unpacked remote entities with no equal local entity
under their UUID; toBeDeleted holds exactly (in local order) the local
entities not matched by an equal remote entity; and a changed entity
(same UUID, not equal) appears in both toBeAdded and toBeDeleted. -/
theorem c1_amended {T : Type} (rs : List (PEntity T)) (L : List (String × T))
    (hr : (rs.map PEntity.uuid).Nodup) (hL : (L.map Prod.fst).Nodup) :
    (getProcessingQueues rs L).toBeAdded =
      (rs.filter (fun r => !(matchesLocal L r))).map PEntity.unpack ∧
    (getProcessingQueues rs L).toBeDeleted =
      (L.filter (fun kv => !(rs.any (fun r => r.uuid == kv.1 && r.equal kv.2)))).map
        Prod.snd ∧
    (∀ r ∈ rs, ∀ kv ∈ L, r.uuid = kv.1 → r.equal kv.2 = false →
      r.unpack ∈ (getProcessingQueues rs L).toBeAdded ∧
      kv.2 ∈ (getProcessingQueues rs L).toBeDeleted) := by
  have hadd : (getProcessingQueues rs L).toBeAdded =
      (rs.filter (fun r => !(matchesLocal L r))).map PEntity.unpack := by
    have := gpqGo_adds rs L [] hr
    simpa [getProcessingQueues] using this
  have hdel : (getProcessingQueues rs L).toBeDeleted =
      (L.filter (fun kv => !(rs.any (fun r => r.uuid == kv.1 && r.equal kv.2)))).map
        Prod.snd := by
    have := gpqGo_localAfter rs L [] hr hL
    simp [getProcessingQueues, this]
  refine ⟨hadd, hdel, ?_⟩
  intro r hrmem kv hkvmem huuid hneq
  have hlook : lookupE L r.uuid = some kv.2 := by
    rw [huuid]
    exact lookupE_of_mem L kv.1 kv.2 hL ((Prod.mk.eta (p := kv)) ▸ hkvmem)
  constructor
  · rw [hadd]
    apply List.mem_map.mpr
    refine ⟨r, ?_, rfl⟩
    apply List.mem_filter.mpr
    refine ⟨hrmem, ?_⟩
    simp [matchesLocal, hlook, hneq]
  · rw [hdel]
    apply List.mem_map.mpr
    refine ⟨kv, ?_, rfl⟩
    apply List.mem_filter.mpr
    refine ⟨hkvmem, ?_⟩
    simp only [Bool.not_eq_eq_eq_not, Bool.not_true, List.any_eq_false]
    intro rr hrrmem
    by_cases hrru : rr.uuid = kv.1
    · have : rr = r := by
        apply List.inj_on_of_nodup_map hr hrrmem hrmem
        rw [hrru, huuid]
      rw [this]
      simp [hneq]
    · simp [hrru]

/-- C1 amended witness: concrete instantiation; the unmatched remote
entity is added, the unmatched local entity is deleted. -/
theorem c1_amended_witness :
    (getProcessingQueues [PEntity.mk "u1" (fun l => l == "v1") "w1"]
      [("u2", "v2")]).toBeAdded = ["w1"] ∧
    (getProcessingQueues [PEntity.mk "u1" (fun l => l == "v1") "w1"]
      [("u2", "v2")]).toBeDeleted = ["v2"] := by
  have h := c1_amended [PEntity.mk "u1" (fun l => l == "v1") "w1"] [("u2", "v2")]
    (by simp) (by simp)
  exact ⟨h.1.trans (by decide), h.2.1.trans (by decide)⟩

/-- C2 counterexample: the differ does not operate on a copy of the local
entity map.  After the call with a remote entity matched by the local
entity under UUID "b", the local map object has lost that entry: it is no
longer equal to its value before the call. -/
theorem c2_counterexample :
    (getProcessingQueues [PEntity.mk "b" (fun l => l == "lb") "rb"]
      [("b", "lb")]).localAfter ≠ [("b", "lb")] := by
  decide

/-- C2 (amended): the differ mutates its local map argument: after the
call the map retains exactly the entries not matched by an equal remote
entity, and toBeDeleted is the list of values of that mutated map.  The
result is still a function of the values of the two arguments only. -/
theorem c2_amended {T : Type} (rs : List (PEntity T)) (L : List (String × T))
    (hr : (rs.map PEntity.uuid).Nodup) (hL : (L.map Prod.fst).Nodup) :
    (getProcessingQueues rs L).localAfter =
      L.filter (fun kv => !(rs.any (fun r => r.uuid == kv.1 && r.equal kv.2))) ∧
    (getProcessingQueues rs L).toBeDeleted =
      ((getProcessingQueues rs L).localAfter).map Prod.snd := by
  have h := gpqGo_localAfter rs L [] hr hL
  exact ⟨by simpa [getProcessingQueues] using h, by simp [getProcessingQueues]⟩

/-- C2 amended witness: concrete instantiation; the matched entry is
removed from the map by the call. -/
theorem c2_amended_witness :
    (getProcessingQueues [PEntity.mk "c" (fun l => l == "lc") "rc"]
      [("c", "lc"), ("d", "ld")]).localAfter = [("d", "ld")] := by
  have h := c2_amended [PEntity.mk "c" (fun l => l == "lc") "rc"]
    [("c", "lc"), ("d", "ld")] (by simp) (by simp)
  exact h.1.trans (by decide)

/-- C9: if the local entity map is exactly the one a successful write
phase persists for remote list rs and the next load re-reads (one entry
per remote entity, keyed by its UUID, equal to it), then diffing rs
against it yields empty toBeAdded and empty toBeDeleted: the second sync
run mutates nothing.  The reloaded local state is modelled from the
spec's round-trip law (the write helpers are not part of the given
sources). -/
theorem c9_second_sync_diff_empty {T : Type} (rs : List (PEntity T))
    (f : PEntity T → T)
    (hr : (rs.map PEntity.uuid).Nodup)
    (heq : ∀ r ∈ rs, r.equal (f r) = true) :
    (getProcessingQueues rs (rs.map (fun r => (r.uuid, f r)))).toBeAdded = [] ∧
    (getProcessingQueues rs (rs.map (fun r => (r.uuid, f r)))).toBeDeleted = [] := by
  have hkeys : ((rs.map (fun r => (r.uuid, f r))).map Prod.fst).Nodup := by
    rw [List.map_map]
    exact hr
  have h := c1_amended rs (rs.map (fun r => (r.uuid, f r))) hr hkeys
  constructor
  · rw [h.1]
    have : rs.filter (fun r => !(matchesLocal (rs.map (fun r => (r.uuid, f r))) r)) = [] := by
      rw [List.filter_eq_nil_iff]
      intro r hrmem
      have hlk : lookupE (rs.map (fun r => (r.uuid, f r))) r.uuid = some (f r) := by
        apply lookupE_of_mem _ _ _ hkeys
        exact List.mem_map.mpr ⟨r, hrmem, rfl⟩
      simp [matchesLocal, hlk, heq r hrmem]
    rw [this]
    rfl
  · rw [h.2.1]
    have : (rs.map (fun r => (r.uuid, f r))).filter
        (fun kv => !(rs.any (fun r => r.uuid == kv.1 && r.equal kv.2))) = [] := by
      rw [List.filter_eq_nil_iff]
      intro kv hkvmem
      rcases List.mem_map.mp hkvmem with ⟨r, hrmem, hkv⟩
      have hany : rs.any (fun rr => rr.uuid == kv.1 && rr.equal kv.2) = true := by
        apply List.any_eq_true.mpr
        exact ⟨r, hrmem, by rw [← hkv]; simp [heq r hrmem]⟩
      simp [hany]
    rw [this]
    rfl

/-- C9 witness: concrete instantiation; a remote list diffed against the
exactly-matching reloaded local state produces empty queues. -/
theorem c9_witness :
    (getProcessingQueues [PEntity.mk "x" (fun l => l == "lx") "lx"]
      [("x", "lx")]).toBeAdded = [] ∧
    (getProcessingQueues [PEntity.mk "x" (fun l => l == "lx") "lx"]
      [("x", "lx")]).toBeDeleted = [] := by
  have h := c9_second_sync_diff_empty [PEntity.mk "x" (fun l => l == "lx") "lx"]
    (fun r => r.unpack) (by simp) (by intro r hr; simp at hr; rw [hr]; rfl)
  exact h

/-! ## The sync driver (SyncEngine.sync, checkFatalError)

A thrown JavaScript error is modelled by its code property (possibly
absent).  The iCPSError raised by the engine carries one of the two error
codes used in sync-engine.ts and an optional cause. -/

/-- A JavaScript error as observed by checkFatalError: only its code
property matters. -/
structure JsError : Type where
  code : Option String
  message : String
deriving DecidableEq

/-- Error codes of app/error/error-codes.ts used by the sync engine. -/
inductive SyncErrCode : Type where
  | maxRetry
  | unknownSync
deriving DecidableEq

/-- The iCPSError raised by the sync engine: its code, the wrapped cause
(addCause) and the added message (addMessage). -/
structure ICPSError : Type where
  errCode : SyncErrCode
  cause : Option JsError
  addedMessage : Option String
deriving DecidableEq

/-- Embedding of SyncEngine.checkFatalError: returns false (recoverable)
for the codes ERR_BAD_RESPONSE, ERR_BAD_REQUEST and EAI_AGAIN; for any
other error it throws an UNKNOWN_SYNC iCPSError with the error as its
cause. -/
def checkFatalError (err : JsError) : Except ICPSError Bool :=
  if err.code = some "ERR_BAD_RESPONSE" then Except.ok false
  else if err.code = some "ERR_BAD_REQUEST" then Except.ok false
  else if err.code = some "EAI_AGAIN" then Except.ok false
  else Except.error (ICPSError.mk SyncErrCode.unknownSync (some err) none)

/-- Behavior of one sync attempt: the error (if any) thrown by
fetchAndLoadState, by diffState and by writeState during that attempt. -/
structure Attempt : Type where
  fetchErr : Option JsError
  diffErr : Option JsError
  writeErr : Option JsError

/-- Outcome of a sync() call: normal return after a given number of
attempts, an error propagating out of the loop uncaught, the UNKNOWN_SYNC
error thrown by checkFatalError, or the MAX_RETRY error thrown after the
loop with the final retryCount as its message. -/
inductive SyncOutcome : Type where
  | done (attempt : Nat)
  | propagated (e : JsError)
  | fatalSync (e : ICPSError)
  | maxRetryExceeded (retryCount : Nat)
deriving DecidableEq

/-- Embedding of the retry loop of SyncEngine.sync.  The loop runs while
maxRetry > retryCount; each iteration increments retryCount, then awaits
fetchAndLoadState and diffState outside any try block (their errors
propagate out of sync), then runs writeState inside try: on an error,
checkFatalError either throws (fatal, propagates) or classifies it as
recoverable, in which case the engine prepares a retry and loops.  When
the loop condition fails, the MAX_RETRY iCPSError is thrown carrying the
final retryCount. -/
def syncLoop (beh : Nat → Attempt) (maxRetry : Int) (retryCount : Nat) : SyncOutcome :=
  if _h : maxRetry > (retryCount : Int) then
    let rc := retryCount + 1
    let a := beh rc
    match a.fetchErr with
    | some e => SyncOutcome.propagated e
    | none =>
      match a.diffErr with
      | some e => SyncOutcome.propagated e
      | none =>
        match a.writeErr with
        | none => SyncOutcome.done rc
        | some e =>
          match checkFatalError e with
          | Except.error ice => SyncOutcome.fatalSync ice
          | Except.ok _ => syncLoop beh maxRetry rc
  else SyncOutcome.maxRetryExceeded retryCount
termination_by (maxRetry - retryCount).toNat
decreasing_by
  omega

/-- Embedding of SyncEngine.sync: runs the retry loop with retryCount
starting at 0. -/
def sync (beh : Nat → Attempt) (maxRetry : Int) : SyncOutcome :=
  syncLoop beh maxRetry 0

/-! ### Claims about the sync driver -/

/-- C5: checkFatalError returns normally exactly for the codes
ERR_BAD_RESPONSE (HTTP 5xx), ERR_BAD_REQUEST (HTTP 4xx) and EAI_AGAIN
(transient DNS failure); it never returns true; for every other error it
throws the UNKNOWN_SYNC iCPSError wrapping the error as its cause. -/
theorem c5_checkFatalError (e : JsError) :
    (checkFatalError e = Except.ok false ∨
      checkFatalError e =
        Except.error (ICPSError.mk SyncErrCode.unknownSync (some e) none)) ∧
    ((checkFatalError e = Except.ok false) ↔
      (e.code = some "ERR_BAD_RESPONSE" ∨ e.code = some "ERR_BAD_REQUEST" ∨
        e.code = some "EAI_AGAIN")) ∧
    (checkFatalError e ≠ Except.ok true) ∧
    ((checkFatalError e =
        Except.error (ICPSError.mk SyncErrCode.unknownSync (some e) none)) ↔
      ¬(e.code = some "ERR_BAD_RESPONSE" ∨ e.code = some "ERR_BAD_REQUEST" ∨
        e.code = some "EAI_AGAIN")) := by
  by_cases h1 : e.code = some "ERR_BAD_RESPONSE" <;>
    by_cases h2 : e.code = some "ERR_BAD_REQUEST" <;>
      by_cases h3 : e.code = some "EAI_AGAIN" <;>
        simp_all [checkFatalError]

/-- C3 (code evaluated at the failing input): with maxRetry = -1 the loop
condition maxRetry > retryCount fails immediately, so sync() performs
zero attempts and raises the MAX_RETRY error with retryCount 0 — it does
not retry forever, contradicting the doc comment on the maxRetry field
and the spec. -/
theorem c3_maxRetry_minus_one (beh : Nat → Attempt) :
    sync beh (-1) = SyncOutcome.maxRetryExceeded 0 := by
  unfold sync
  rw [syncLoop]
  norm_num

/-- C4 counterexample: a recoverable transport error (code
ERR_BAD_RESPONSE) thrown during fetch & load propagates out of sync()
instead of causing a retry, because only writeState is inside the try
block.  Here maxRetry = 5, so the retry budget is not the reason. -/
theorem c4_counterexample :
    sync (fun _ => Attempt.mk (some (JsError.mk (some "ERR_BAD_RESPONSE") "bad gateway"))
        none none) 5 =
      SyncOutcome.propagated (JsError.mk (some "ERR_BAD_RESPONSE") "bad gateway") := by
  unfold sync
  rw [syncLoop]
  norm_num

/-- C4 (amended): the retry loop covers only the write phase.  While the
loop condition holds, an error thrown during fetch & load or during diff
propagates out of sync() unretried (whatever its code), and a recoverable
error thrown during write makes the engine prepare a retry and start the
next attempt. -/
theorem c4_amended (beh : Nat → Attempt) (maxRetry : Int) (retryCount : Nat)
    (e : JsError) (hrun : maxRetry > (retryCount : Int)) :
    ((beh (retryCount + 1)).fetchErr = some e →
      syncLoop beh maxRetry retryCount = SyncOutcome.propagated e) ∧
    ((beh (retryCount + 1)).fetchErr = none →
      (beh (retryCount + 1)).diffErr = some e →
      syncLoop beh maxRetry retryCount = SyncOutcome.propagated e) ∧
    ((beh (retryCount + 1)).fetchErr = none →
      (beh (retryCount + 1)).diffErr = none →
      (beh (retryCount + 1)).writeErr = some e →
      checkFatalError e = Except.ok false →
      syncLoop beh maxRetry retryCount = syncLoop beh maxRetry (retryCount + 1)) := by
  refine ⟨?_, ?_, ?_⟩
  · intro hf
    rw [syncLoop]
    simp [hrun, hf]
  · intro hf hd
    rw [syncLoop]
    simp [hrun, hf, hd]
  · intro hf hd hw hc
    conv_lhs => rw [syncLoop]
    simp [hrun, hf, hd, hw, hc]

/-- C4 amended witness: concrete instantiations of both halves — a
fetch-phase EAI_AGAIN propagates; a write-phase EAI_AGAIN loops into the
next attempt. -/
theorem c4_amended_witness :
    syncLoop (fun _ => Attempt.mk (some (JsError.mk (some "EAI_AGAIN") "dns")) none none)
        3 0 = SyncOutcome.propagated (JsError.mk (some "EAI_AGAIN") "dns") ∧
    syncLoop (fun _ => Attempt.mk none none (some (JsError.mk (some "EAI_AGAIN") "dns")))
        3 0 =
      syncLoop (fun _ => Attempt.mk none none (some (JsError.mk (some "EAI_AGAIN") "dns")))
        3 1 := by
  have h1 := c4_amended
    (fun _ => Attempt.mk (some (JsError.mk (some "EAI_AGAIN") "dns")) none none) 3 0
    (JsError.mk (some "EAI_AGAIN") "dns") (by norm_num)
  have h2 := c4_amended
    (fun _ => Attempt.mk none none (some (JsError.mk (some "EAI_AGAIN") "dns"))) 3 0
    (JsError.mk (some "EAI_AGAIN") "dns") (by norm_num)
  exact ⟨h1.1 rfl, h2.2.2 rfl rfl rfl rfl⟩

/-! ## The album loader (PhotosLibrary.loadAlbum / loadAlbums)

Albums as loaded from disk: UUID, kind, display name, parent UUID and
the asset map (asset UUID to link name) built for ALBUM kind. -/

/-- Local album entity, from model/album.ts. -/
structure Album : Type where
  uuid : String
  albumType : AlbumType
  albumName : String
  parentAlbumUUID : String
  assets : List (String × String)
deriving DecidableEq

/-- Node path.basename: drop trailing separators, then take the part
after the last remaining separator (computed on the character list). -/
def pathBasename (p : String) : String :=
  String.mk
    (((p.toList.reverse.dropWhile (fun c => c == '/')).takeWhile
      (fun c => !(c == '/'))).reverse)

/-- Node path.parse(p).name: the basename without its extension; the
extension starts at the last dot of the basename unless that dot is its
first character. -/
def pathParseName (p : String) : String :=
  let base := (pathBasename p).toList
  match base.reverse.findIdx? (fun c => c == '.') with
  | none => String.mk base
  | some rIdx =>
    let i := base.length - 1 - rIdx
    if i = 0 then String.mk base else String.mk (base.take i)

/-- Resolution of a symbolic-link target among the entries of the
directory the link sits in: the contents of the subdirectory whose name
is the target (fs.readdir on path.join(album.albumPath, target)). -/
def findDir (t : String) : List DEntry → Option (List DEntry)
  | [] => none
  | DEntry.dir n cs :: rest => if n == t then some cs else findDir t rest
  | _ :: rest => findDir t rest

/-- The symbolic links of a directory listing, as (link name, target)
pairs: the filter on isSymbolicLink plus fs.readlink of loadAlbum. -/
def symlinksOf (contents : List DEntry) : List (String × String)  :=
  contents.filterMap (fun e => match e with
    | DEntry.symlink n t => some (n, t)
    | _ => none)

theorem findDir_sizeOf (t : String) (l : List DEntry) (cs : List DEntry)
    (h : findDir t l = some cs) : sizeOf cs < sizeOf l := by
  induction l with
  | nil => simp [findDir] at h
  | cons e rest ih =>
    cases e with
    | dir n cs2 =>
      by_cases hn : (n == t) = true
      · simp [findDir, hn] at h
        subst h
        simp
        omega
      · simp [findDir, hn] at h
        have := ih h
        simp
        omega
    | file n =>
      simp [findDir] at h
      have := ih h
      simp
      omega
    | symlink n t2 =>
      simp [findDir] at h
      have := ih h
      simp
      omega

/-- Loop of PhotosLibrary.loadAlbum over the symbolic links of the album
directory.  albums is the accumulator array of the TypeScript code.  The
FOLDER branch recovers the child UUID by stripping the first character of
the target basename, resolves the target directory, classifies it, and
recurses (the recursive loadAlbum call is inlined as the inner
processLinks call on the child contents).  The ALBUM branch records the
member on albums[0] (none models the TypeScript TypeError when the array
is empty).  The ARCHIVED branch ignores the entry.  none also models a
thrown error when a link target cannot be resolved. -/
def processLinks (album : Album) (contents : List DEntry)
    (links : List (String × String)) (albums : List Album) : Option (List Album) :=
  match links with
  | [] => some albums
  | (linkName, target) :: rest =>
    if album.albumType = AlbumType.folder then
      let uuid := (pathBasename target).drop 1
      match hfd : findDir target contents with
      | none => none
      | some cs =>
        let folderType := readAlbumTypeFromPath cs
        let loadedAlbum := Album.mk uuid folderType linkName album.uuid []
        let childInit := if 0 < loadedAlbum.uuid.length then [loadedAlbum] else []
        match processLinks loadedAlbum cs (symlinksOf cs) childInit with
        | none => none
        | some childAlbums => processLinks album contents rest (albums ++ childAlbums)
    else if album.albumType = AlbumType.album then
      let uuid := pathParseName target
      match albums with
      | [] => none
      | a :: t =>
        processLinks album contents rest
          (Album.mk a.uuid a.albumType a.albumName a.parentAlbumUUID
            (objSet a.assets uuid linkName) :: t)
    else
      processLinks album contents rest albums
termination_by (sizeOf contents, links.length)
decreasing_by
  · exact Prod.Lex.left _ _ (findDir_sizeOf target contents cs hfd)
  · exact Prod.Lex.right _ (Nat.lt_succ_self _)
  · exact Prod.Lex.right _ (Nat.lt_succ_self _)
  · exact Prod.Lex.right _ (Nat.lt_succ_self _)

/-- Embedding of PhotosLibrary.loadAlbum: pushes the album itself unless
its UUID is empty (the dummy root album), then processes the symbolic
links of its directory. -/
def loadAlbum (album : Album) (contents : List DEntry) : Option (List Album) :=
  processLinks album contents (symlinksOf contents)
    (if 0 < album.uuid.length then [album] else [])

/-- Modelled from the spec: Album.getRootAlbum (model/album.ts is not
among the given sources); the root album has the empty UUID and, per the
layout of section 6, is the FOLDER at the top of the album tree. -/
def rootAlbum : Album :=
  Album.mk "" AlbumType.folder "" "" []

/-- Embedding of PhotosLibrary.loadAlbums: loads the album tree from the
root and keys the resulting albums by UUID. -/
def loadAlbums (rootContents : List DEntry) : Option (List (String × Album)) :=
  match loadAlbum rootAlbum rootContents with
  | none => none
  | some albums => some (albums.foldl (fun m a => objSet m a.uuid a) [])

/-! ### Step equations for processLinks

The recursion of processLinks goes through a match that binds the proof
of the findDir equation (needed for termination), which blocks direct
rewriting; these unconditional equations restate its defining cases. -/

theorem processLinks_nil (album : Album) (contents : List DEntry)
    (albums : List Album) :
    processLinks album contents [] albums = some albums := by
  rw [processLinks.eq_def]

theorem processLinks_folder_none (album : Album) (contents : List DEntry)
    (linkName target : String) (rest : List (String × String)) (albums : List Album)
    (hft : album.albumType = AlbumType.folder)
    (hfd : findDir target contents = none) :
    processLinks album contents ((linkName, target) :: rest) albums = none := by
  rw [processLinks.eq_def]
  simp only [hft, if_pos]
  split
  · rfl
  · rename_i cs2 hfd2
    rw [hfd] at hfd2
    cases hfd2

theorem processLinks_folder_some (album : Album) (contents : List DEntry)
    (linkName target : String) (rest : List (String × String)) (albums : List Album)
    (cs : List DEntry)
    (hft : album.albumType = AlbumType.folder)
    (hfd : findDir target contents = some cs) :
    processLinks album contents ((linkName, target) :: rest) albums =
      (match processLinks
          (Album.mk ((pathBasename target).drop 1) (readAlbumTypeFromPath cs)
            linkName album.uuid [])
          cs (symlinksOf cs)
          (if 0 < ((pathBasename target).drop 1).length then
            [Album.mk ((pathBasename target).drop 1) (readAlbumTypeFromPath cs)
              linkName album.uuid []]
          else []) with
      | none => none
      | some childAlbums => processLinks album contents rest (albums ++ childAlbums)) := by
  rw [processLinks.eq_def]
  simp only [hft, if_pos]
  split
  · rename_i hfd2
    rw [hfd] at hfd2
    cases hfd2
  · rename_i cs2 hfd2
    rw [hfd] at hfd2
    injection hfd2 with hcs
    subst hcs
    rfl

theorem processLinks_album_nil (album : Album) (contents : List DEntry)
    (linkName target : String) (rest : List (String × String))
    (hft : ¬album.albumType = AlbumType.folder)
    (hal : album.albumType = AlbumType.album) :
    processLinks album contents ((linkName, target) :: rest) [] = none := by
  rw [processLinks.eq_def]
  dsimp only
  rw [if_neg hft, if_pos hal]

theorem processLinks_album_cons (album : Album) (contents : List DEntry)
    (linkName target : String) (rest : List (String × String))
    (a : Album) (t : List Album)
    (hft : ¬album.albumType = AlbumType.folder)
    (hal : album.albumType = AlbumType.album) :
    processLinks album contents ((linkName, target) :: rest) (a :: t) =
      processLinks album contents rest
        (Album.mk a.uuid a.albumType a.albumName a.parentAlbumUUID
          (objSet a.assets (pathParseName target) linkName) :: t) := by
  rw [processLinks.eq_def]
  dsimp only
  rw [if_neg hft, if_pos hal]

theorem processLinks_archived (album : Album) (contents : List DEntry)
    (linkName target : String) (rest : List (String × String)) (albums : List Album)
    (hft : ¬album.albumType = AlbumType.folder)
    (hal : ¬album.albumType = AlbumType.album) :
    processLinks album contents ((linkName, target) :: rest) albums =
      processLinks album contents rest albums := by
  rw [processLinks.eq_def]
  dsimp only
  rw [if_neg hft, if_neg hal]

/-! ### Claims about the album loader -/

/-- Statement of the recovery rule the claim (and section 6 of the spec)
gives for a directory name: strip the leading dot and read up to, not
including, the first dash.  Declared only for comparison with the
recovery the code actually performs. -/
def specRecoverUUID (dirName : String) : String :=
  String.mk ((dirName.toList.drop 1).takeWhile (fun c => !(c == '-')))

/-- C7 counterexample: on a directory named .ABC-Holiday the loader
recovers the UUID "ABC-Holiday" (it strips the dot and keeps the whole
remainder, including the dash and safe name), while the claimed rule
yields "ABC". -/
theorem c7_counterexample :
    loadAlbums [DEntry.symlink "Holiday" ".ABC-Holiday", DEntry.dir ".ABC-Holiday" []] =
      some [("ABC-Holiday", Album.mk "ABC-Holiday" AlbumType.album "Holiday" "" [])] ∧
    specRecoverUUID ".ABC-Holiday" = "ABC" ∧
    ("ABC-Holiday" : String) ≠ "ABC" := by
  refine ⟨?_, by decide, by decide⟩
  simp only [loadAlbums, loadAlbum, processLinks, symlinksOf, findDir, rootAlbum]
  simp [processLinks, symlinksOf, findDir, readAlbumTypeFromPath]
  decide

/-- C7 (amended): the UUID the loader recovers from a symbolic-link
target is the target's basename with only its first character (the
leading dot) stripped; nothing is truncated at the first dash.  Stated
for a root directory holding one link and its target directory, for every
target name whose stripped basename is non-empty. -/
theorem c7_amended (n t : String) (h : 0 < ((pathBasename t).drop 1).length) :
    loadAlbums [DEntry.symlink n t, DEntry.dir t []] =
      some [((pathBasename t).drop 1,
        Album.mk ((pathBasename t).drop 1) AlbumType.album n "" [])] := by
  have hfd : findDir t [DEntry.symlink n t, DEntry.dir t []] = some [] := by
    simp [findDir]
  have hsym : symlinksOf [DEntry.symlink n t, DEntry.dir t []] = [(n, t)] := by
    simp [symlinksOf]
  have h0 : (if 0 < rootAlbum.uuid.length then [rootAlbum] else []) = ([] : List Album) := rfl
  unfold loadAlbums loadAlbum
  rw [hsym, h0,
    processLinks_folder_some rootAlbum [DEntry.symlink n t, DEntry.dir t []] n t [] []
      [] rfl hfd]
  rw [show readAlbumTypeFromPath [] = AlbumType.album from rfl]
  rw [if_pos h]
  rw [show symlinksOf [] = ([] : List (String × String)) from rfl]
  rw [processLinks_nil]
  simp only []
  rw [processLinks_nil]
  simp [objSet, rootAlbum]

/-- C7 amended witness: with target .XYZ-W the loader recovers
"XYZ-W". -/
theorem c7_amended_witness :
    loadAlbums [DEntry.symlink "W" ".XYZ-W", DEntry.dir ".XYZ-W" []] =
      some [("XYZ-W", Album.mk "XYZ-W" AlbumType.album "W" "" [])] := by
  have h := c7_amended "W" ".XYZ-W" (by decide)
  have h2 : ((pathBasename ".XYZ-W").drop 1) = "XYZ-W" := by decide
  rw [h2] at h
  exact h

theorem objSet_mem {T : Type} (m : List (String × T)) (k : String) (v : T)
    (kv : String × T) (h : kv ∈ objSet m k v) : kv ∈ m ∨ kv = (k, v) := by
  unfold objSet at h
  by_cases hc : m.any (fun kv => kv.1 == k) = true
  · rw [if_pos hc] at h
    rcases List.mem_map.mp h with ⟨kv2, hkv2, heq⟩
    by_cases hk : (kv2.1 == k) = true
    · rw [if_pos hk] at heq
      exact Or.inr heq.symm
    · rw [if_neg hk] at heq
      exact Or.inl (heq ▸ hkv2)
  · rw [if_neg hc] at h
    rcases List.mem_append.mp h with h1 | h2
    · exact Or.inl h1
    · exact Or.inr (List.mem_singleton.mp h2)

theorem mem_foldl_objSet (l : List Album) :
    ∀ (init : List (String × Album)) (kv : String × Album),
    kv ∈ l.foldl (fun m a => objSet m a.uuid a) init → kv.2 ∈ l ∨ kv ∈ init := by
  induction l with
  | nil => intro init kv h; exact Or.inr h
  | cons a rest ih =>
    intro init kv h
    rcases ih (objSet init a.uuid a) kv h with h1 | h2
    · exact Or.inl (List.mem_cons.mpr (Or.inr h1))
    · rcases objSet_mem init a.uuid a kv h2 with h3 | h4
      · exact Or.inr h3
      · refine Or.inl ?_
        rw [h4]
        exact List.mem_cons_self _ _

/-- Invariant of the loadAlbum loop: if every album already accumulated
has a non-empty UUID, so does every album in a successful result — the
guard at the top of loadAlbum admits an album (the initial accumulator of
a recursive call) only when its UUID is non-empty. -/
theorem processLinks_uuid_pos (album : Album) (contents : List DEntry)
    (links : List (String × String)) (albums : List Album) :
    ∀ out, processLinks album contents links albums = some out →
    (∀ x ∈ albums, 0 < x.uuid.length) → ∀ x ∈ out, 0 < x.uuid.length := by
  induction album, contents, links, albums using processLinks.induct with
  | case1 album contents albums =>
    intro out h hinv
    rw [processLinks_nil] at h
    injection h with h2
    exact h2 ▸ hinv
  | case2 album contents albums linkName target rest hft hfd =>
    intro out h hinv
    rw [processLinks_folder_none album contents linkName target rest albums hft hfd] at h
    cases h
  | case3 album contents albums linkName target rest hft u cs hfd ft la ci hchild ihchild =>
    intro out h hinv
    have hchild2 : processLinks
        (Album.mk ((pathBasename target).drop 1) (readAlbumTypeFromPath cs)
          linkName album.uuid [])
        cs (symlinksOf cs)
        (if 0 < ((pathBasename target).drop 1).length then
          [Album.mk ((pathBasename target).drop 1) (readAlbumTypeFromPath cs)
            linkName album.uuid []]
        else []) = none := hchild
    rw [processLinks_folder_some album contents linkName target rest albums cs hft hfd] at h
    simp only [hchild2] at h
    cases h
  | case4 album contents albums linkName target rest hft u cs hfd ft la ci childAlbums hchild ihchild ihrest =>
    intro out h hinv
    have hchild2 : processLinks
        (Album.mk ((pathBasename target).drop 1) (readAlbumTypeFromPath cs)
          linkName album.uuid [])
        cs (symlinksOf cs)
        (if 0 < ((pathBasename target).drop 1).length then
          [Album.mk ((pathBasename target).drop 1) (readAlbumTypeFromPath cs)
            linkName album.uuid []]
        else []) = some childAlbums := hchild
    rw [processLinks_folder_some album contents linkName target rest albums cs hft hfd] at h
    simp only [hchild2] at h
    apply ihrest out h
    intro x hx
    rcases List.mem_append.mp hx with h1 | h2
    · exact hinv x h1
    · apply ihchild childAlbums hchild ?_ x h2
      intro y hy
      have hy2 : y ∈ (if 0 < ((pathBasename target).drop 1).length then
          [Album.mk ((pathBasename target).drop 1) (readAlbumTypeFromPath cs)
            linkName album.uuid []]
        else ([] : List Album)) := hy
      by_cases hpos : 0 < ((pathBasename target).drop 1).length
      · rw [if_pos hpos] at hy2
        rw [List.mem_singleton.mp hy2]
        exact hpos
      · rw [if_neg hpos] at hy2
        cases hy2
  | case5 album contents linkName target rest hft hal =>
    intro out h hinv
    rw [processLinks_album_nil album contents linkName target rest hft hal] at h
    cases h
  | case6 album contents linkName target rest hft hal u a t ihrest =>
    intro out h hinv
    rw [processLinks_album_cons album contents linkName target rest a t hft hal] at h
    apply ihrest out h
    intro x hx
    rcases List.mem_cons.mp hx with h1 | h2
    · have := hinv a (List.mem_cons_self _ _)
      rw [h1]
      exact this
    · exact hinv x (List.mem_cons.mpr (Or.inr h2))
  | case7 album contents albums linkName target rest hft hal ihrest =>
    intro out h hinv
    rw [processLinks_archived album contents linkName target rest albums hft hal] at h
    exact ihrest out h hinv

/-- C10: every album in the map loadAlbums returns has a non-empty UUID;
in particular the root album (whose UUID is empty) is never in the map,
because loadAlbum only collects an album when its UUID is non-empty while
still recursing into its children. -/
theorem c10_loadAlbums_no_root (rootContents : List DEntry)
    (m : List (String × Album)) (h : loadAlbums rootContents = some m) :
    ∀ kv ∈ m, 0 < kv.2.uuid.length := by
  unfold loadAlbums at h
  cases hla : loadAlbum rootAlbum rootContents with
  | none => rw [hla] at h; cases h
  | some albums =>
    rw [hla] at h
    injection h with h2
    intro kv hkv
    rw [← h2] at hkv
    rcases mem_foldl_objSet albums [] kv hkv with h3 | h4
    · unfold loadAlbum at hla
      apply processLinks_uuid_pos rootAlbum rootContents (symlinksOf rootContents)
        (if 0 < rootAlbum.uuid.length then [rootAlbum] else []) albums hla ?_ kv.2 h3
      intro y hy
      rw [show (if 0 < rootAlbum.uuid.length then [rootAlbum] else []) = ([] : List Album)
        from rfl] at hy
      cases hy
    · cases h4

/-- C10 witness: a concrete tree with one album directory; the loaded
entry has a non-empty UUID. -/
theorem c10_witness :
    0 < (Album.mk "R1" AlbumType.album "My" "" []).uuid.length := by
  have h := c10_loadAlbums_no_root [DEntry.symlink "My" ".R1", DEntry.dir ".R1" []]
    [("R1", Album.mk "R1" AlbumType.album "My" "" [])] ?h
    ("R1", Album.mk "R1" AlbumType.album "My" "" []) (List.mem_singleton.mpr rfl)
  · exact h
  case h =>
    simp only [loadAlbums, loadAlbum, processLinks, symlinksOf, findDir, rootAlbum]
    simp [processLinks, symlinksOf, findDir, readAlbumTypeFromPath]
    decide

/-! ### The album differ instance (C8) -/

/-- Modelled from the spec: Album.equal (model/album.ts is not among the
given sources); section 4.2 and the data-model table of the spec give the
album equality fingerprint: the tuple (kind, display name, parent UUID)
must match. -/
def albumEqual (a b : Album) : Bool :=
  decide (a.albumType = b.albumType ∧ a.albumName = b.albumName ∧
    a.parentAlbumUUID = b.parentAlbumUUID)

/-- A remote album record as the PEntity the differ consumes: keyed by
its UUID, compared by albumEqual, unpacking to itself. -/
def albumPEntity (a : Album) : PEntity Album :=
  PEntity.mk a.uuid (fun l => albumEqual a l) a

/-- Modelled from the spec: PhotosLibrary.removeAlbum (not among the
given sources); section 4.1 of the spec: removal is only permitted when
the album directory is empty of subdirectories and regular files (links
are removed first); otherwise it fails with an error the caller must
treat as fatal, so the directory contents stay on disk. -/
def removeAlbum (contents : List DEntry) : Except String Unit :=
  if contents.any (fun e => e.isDirectory) || contents.any (fun e => e.isFile) then
    Except.error "Album directory not empty"
  else Except.ok ()

/-- C8 counterexample: a local ARCHIVED album with the same UUID as a
remote FOLDER record does not suppress the add — the differ compares with
albumEqual, the kinds differ, so the remote record lands in toBeAdded
(and the local entry in toBeDeleted), contradicting the claim that the
same-UUID local entry suffices. -/
theorem c8_counterexample :
    (getProcessingQueues [albumPEntity (Album.mk "F1" AlbumType.folder "F1" "" [])]
      [("F1", Album.mk "F1" AlbumType.archived "F1" "" [])]).toBeAdded =
      [Album.mk "F1" AlbumType.folder "F1" "" []] ∧
    (getProcessingQueues [albumPEntity (Album.mk "F1" AlbumType.folder "F1" "" [])]
      [("F1", Album.mk "F1" AlbumType.archived "F1" "" [])]).toBeDeleted =
      [Album.mk "F1" AlbumType.archived "F1" "" []] := by
  constructor <;> decide

/-- C8 (amended): when the local map holds a same-UUID entry whose kind
differs from the remote album record (ARCHIVED vs FOLDER), the differ
places the remote record in toBeAdded and leaves the local entry in
toBeDeleted, because album equality requires matching kinds; the ARCHIVED
entry's regular files are still not deleted, since removeAlbum refuses to
remove any directory that contains a regular file. -/
theorem c8_amended (r l : Album) (L : List (String × Album))
    (hty : r.albumType ≠ l.albumType) (hlk : lookupE L r.uuid = some l) :
    (getProcessingQueues [albumPEntity r] L).toBeAdded = [r] ∧
    l ∈ (getProcessingQueues [albumPEntity r] L).toBeDeleted ∧
    (∀ cs : List DEntry, (∃ e ∈ cs, e.isFile = true) →
      ∃ msg, removeAlbum cs = Except.error msg) := by
  have heq : albumEqual r l = false := by
    simp [albumEqual]
    intro h
    exact absurd h hty
  have hres : getProcessingQueues [albumPEntity r] L = GPQResult.mk L (L.map Prod.snd) [r] := by
    simp [getProcessingQueues, gpqGo, albumPEntity, hlk, heq]
  refine ⟨by rw [hres], ?_, ?_⟩
  · rw [hres]
    exact List.mem_map.mpr ⟨(r.uuid, l), mem_of_lookupE L r.uuid l hlk, rfl⟩
  · intro cs hfile
    have hany : cs.any (fun e => e.isFile) = true := List.any_eq_true.mpr hfile
    refine ⟨"Album directory not empty", ?_⟩
    unfold removeAlbum
    rw [if_pos]
    rw [hany]
    simp

/-- C8 amended witness: concrete instantiation; the remote FOLDER G1 is
added despite the same-UUID ARCHIVED local entry, and removeAlbum fails
on a directory holding a regular file. -/
theorem c8_amended_witness :
    (getProcessingQueues [albumPEntity (Album.mk "G1" AlbumType.folder "G" "" [])]
      [("G1", Album.mk "G1" AlbumType.archived "G" "" [])]).toBeAdded =
      [Album.mk "G1" AlbumType.folder "G" "" []] ∧
    (∃ msg, removeAlbum [DEntry.file "photo.jpg"] = Except.error msg) := by
  have h := c8_amended (Album.mk "G1" AlbumType.folder "G" "" [])
    (Album.mk "G1" AlbumType.archived "G" "" [])
    [("G1", Album.mk "G1" AlbumType.archived "G" "" [])]
    (by decide) (by decide)
  exact ⟨h.1, h.2.2 [DEntry.file "photo.jpg"]
    ⟨DEntry.file "photo.jpg", List.mem_singleton.mpr rfl, rfl⟩⟩

/-- C6 witness: concrete instantiation of the classification — one
regular file and no subdirectory gives ARCHIVED. -/
theorem c6_witness :
    readAlbumTypeFromPath [DEntry.file "a.jpg"] = AlbumType.archived := by
  apply (c6_readAlbumTypeFromPath [DEntry.file "a.jpg"]).2.1.mpr
  constructor
  · simp [DEntry.isDirectory]
  · exact ⟨DEntry.file "a.jpg", List.mem_singleton.mpr rfl, rfl⟩

/-- C5 witness: concrete instantiations — EAI_AGAIN is recoverable, an
error without a code is wrapped into the UNKNOWN_SYNC error. -/
theorem c5_witness :
    checkFatalError (JsError.mk (some "EAI_AGAIN") "dns down") = Except.ok false ∧
    checkFatalError (JsError.mk none "disk full") =
      Except.error (ICPSError.mk SyncErrCode.unknownSync
        (some (JsError.mk none "disk full")) none) := by
  constructor
  · exact (c5_checkFatalError (JsError.mk (some "EAI_AGAIN") "dns down")).2.1.mpr
      (Or.inr (Or.inr rfl))
  · exact (c5_checkFatalError (JsError.mk none "disk full")).2.2.2.mpr (by simp)

/-- C3 witness: the failing input evaluated at a concrete attempt
behavior: with maxRetry = -1 sync raises MAX_RETRY after zero attempts
even though every attempt would have succeeded. -/
theorem c3_witness :
    sync (fun _ => Attempt.mk none none none) (-1) = SyncOutcome.maxRetryExceeded 0 :=
  c3_maxRetry_minus_one (fun _ => Attempt.mk none none none)

end ICPS
